import Mathlib

/-!
Verification development for the Page Genius single-page application.

The app has three UI controllers (`Analyzer`, `ImageGenerator`, `ChatBot`)
in `src/components`.  We shallowly embed the state and the event handlers of
each controller as pure Lean functions over explicit state records.  Strings
are modelled as `List Char`; the external generative-AI collaborator and the
host key-management capability are modelled as explicit parameters
(response values, thrown errors, capability presence).
-/

namespace PageGenius

/-- JS strings are modelled as lists of characters. -/
abbrev Str := List Char

/-- Whitespace characters removed by `String.prototype.trim` (ASCII subset
relevant to this code base). -/
def isJsWhitespace (c : Char) : Bool :=
  c = ' ' || c = '\n' || c = '\t' || c = '\r' || c = '\x0b' || c = '\x0c'

/-- Model of `s.trim()`: strips leading and trailing whitespace. -/
def trimList (s : Str) : Str :=
  ((s.dropWhile isJsWhitespace).reverse.dropWhile isJsWhitespace).reverse

/-- Model of `result.split('## ')` (ImageGenerator.tsx, `Analyzer`,
rendering): splits on every leftmost non-overlapping occurrence of the
three-character delimiter `"## "`.  `acc` holds the reversed characters of
the current segment. -/
def splitHH : List Char → List Char → List (List Char)
  | [], acc => [acc.reverse]
  | '#' :: '#' :: ' ' :: rest, acc => acc.reverse :: splitHH rest []
  | c :: rest, acc => splitHH rest (c :: acc)

/-- Number of (leftmost, non-overlapping) occurrences of the delimiter
`"## "` in a string — the spec-side notion "N occurrences of the
delimiter". -/
def countHH : List Char → Nat
  | [] => 0
  | '#' :: '#' :: ' ' :: rest => countHH rest + 1
  | _ :: rest => countHH rest

/-- Model of `section.split('\n')`. -/
def splitNl : List Char → List Char → List (List Char)
  | [], acc => [acc.reverse]
  | c :: rest, acc =>
    if c = '\n' then acc.reverse :: splitNl rest []
    else splitNl rest (c :: acc)

/-- Model of `content.join('\n')`. -/
def joinNl (parts : List Str) : Str :=
  List.intercalate ('\n' :: []) parts

/-- Model of `hay.includes(needle)` for JS strings. -/
def containsSubstr (needle : Str) : Str → Bool
  | [] => needle.isEmpty
  | c :: t => List.isPrefixOf needle (c :: t) || containsSubstr needle t

/-- A displayed section of the analyzer result: heading text and body. -/
structure AnSection where
  title : Str
  body : Str
  deriving DecidableEq

/-- One rendered section (ImageGenerator.tsx lines 427-435): the segment's
first line, trimmed, is the title; the remaining lines, re-joined with
newlines and trimmed, are the body. -/
def mkSection (seg : Str) : AnSection :=
  let parts := splitNl seg []
  ⟨trimList (parts.headD []), trimList (joinNl parts.tail)⟩

/-- Model of the `Analyzer` result rendering (ImageGenerator.tsx lines
425-438): `result.split('## ').map(...)` where the segment at index 0 is
skipped (`return null`) and every other segment becomes a section. -/
def renderSections (result : Str) : List AnSection :=
  (splitHH result []).enum.filterMap
    (fun p => if p.1 = 0 then none else some (mkSection p.2))

/-! ## Chat Controller (ChatBot.tsx) -/

/-- `ChatMessage.role` (types.ts): `'user' | 'model'`. -/
inductive Role where
  | user : Role
  | model : Role
  deriving DecidableEq

/-- `ChatMessage` (types.ts): role, text, timestamp.  Timestamps are
modelled as abstract clock readings (`Nat`). -/
structure ChatMessage where
  role : Role
  text : Str
  timestamp : Nat
  deriving DecidableEq

/-- Chat Controller state: the transcript, the input field and the
"typing" flag (ChatBot.tsx lines 7-9). -/
structure ChatState where
  messages : List ChatMessage
  input : Str
  isTyping : Bool
  deriving DecidableEq

/-- The user message appended by `handleSend` (lines 42-46): raw
(untrimmed) input text. -/
def userMsg (text : Str) (t : Nat) : ChatMessage := ⟨Role.user, text, t⟩

/-- The empty placeholder model message (lines 59-63). -/
def placeholderMsg (t : Nat) : ChatMessage := ⟨Role.model, [], t⟩

/-- The fixed apology text appended on a chat error (line 82). -/
def apologyText : Str :=
  "I\x27m sorry, I\x27m having trouble connecting right now. Please try again.".toList

/-- The apology message appended in the catch block (lines 80-84). -/
def apologyMsg (t : Nat) : ChatMessage := ⟨Role.model, apologyText, t⟩

/-- The initial greeting stored on mount (lines 24-28). -/
def greetingText : Str :=
  "Hello! I\x27m your Page Genius tutor. Do you have questions about a specific topic or problem?".toList

/-- The greeting message set by the mount effect (lines 24-28). -/
def greetingMsg (t : Nat) : ChatMessage := ⟨Role.model, greetingText, t⟩

/-- Model of `newArr[newArr.length - 1].text = fullResponseText` (line 73):
replace the text of the last entry, leaving everything else unchanged.  On
an empty array the JS assignment to index `-1` leaves the array contents
unchanged. -/
def updateLast (msgs : List ChatMessage) (t : Str) : List ChatMessage :=
  match msgs with
  | [] => []
  | [m] => [{ m with text := t }]
  | m :: rest => m :: updateLast rest t

/-- The `for await` streaming loop (lines 65-77): each truthy (non-empty)
chunk text is concatenated onto the accumulator `acc`
(`fullResponseText`) and written into the last transcript entry. -/
def streamLoop (msgs : List ChatMessage) (acc : Str) : List Str → List ChatMessage
  | [] => msgs
  | f :: rest =>
    if f.isEmpty then streamLoop msgs acc rest
    else streamLoop (updateLast msgs (acc ++ f)) (acc ++ f) rest

/-- Instrumented form of `streamLoop`: the list of successive transcript
values committed by `setMessages` inside the streaming loop, one entry per
fragment update. -/
def streamStates (msgs : List ChatMessage) (acc : Str) : List Str → List (List ChatMessage)
  | [] => []
  | f :: rest =>
    if f.isEmpty then streamStates msgs acc rest
    else
      (updateLast msgs (acc ++ f)) ::
        streamStates (updateLast msgs (acc ++ f)) (acc ++ f) rest

/-- Behaviour of the external streamed request for one send: either
`sendMessageStream` itself throws (`openError`), or it yields a list of
fragment texts and then either finishes or throws (`iterError`). -/
inductive StreamSpec where
  | openError : StreamSpec
  | stream : List Str → Bool → StreamSpec
  deriving DecidableEq

/-- Observable actions of one `handleSend` call, in program order. -/
inductive ChatEvent where
  | appendUser : ChatEvent
  | clearInput : ChatEvent
  | setTypingOn : ChatEvent
  | openStream : ChatEvent
  | appendPlaceholder : ChatEvent
  | updateLastText : ChatEvent
  | appendApology : ChatEvent
  | setTypingOff : ChatEvent
  deriving DecidableEq

/-- Model of `handleSend` (ChatBot.tsx lines 39-88), returning the final
controller state together with the ordered list of observable actions.
The guard (line 40) returns immediately on whitespace-only input.
Otherwise: append the user message, clear the input, set typing, await
`sendMessageStream` (which may throw), append the empty placeholder, run
the streaming loop, on a thrown error append the apology message, and
finally clear the typing flag. -/
def handleSendRun (st : ChatState) (spec : StreamSpec) (t : Nat) :
    ChatState × List ChatEvent :=
  if trimList st.input = [] then (st, [])
  else
    let m1 := st.messages ++ [userMsg st.input t]
    match spec with
    | StreamSpec.openError =>
      (⟨m1 ++ [apologyMsg t], [], false⟩,
       [ChatEvent.appendUser, ChatEvent.clearInput, ChatEvent.setTypingOn,
        ChatEvent.openStream, ChatEvent.appendApology, ChatEvent.setTypingOff])
    | StreamSpec.stream frags iterError =>
      let m2 := m1 ++ [placeholderMsg t]
      let m3 := streamLoop m2 [] frags
      (⟨if iterError then m3 ++ [apologyMsg t] else m3, [], false⟩,
       [ChatEvent.appendUser, ChatEvent.clearInput, ChatEvent.setTypingOn,
        ChatEvent.openStream, ChatEvent.appendPlaceholder] ++
       (frags.filter (fun f => !f.isEmpty)).map (fun _ => ChatEvent.updateLastText) ++
       (if iterError then [ChatEvent.appendApology] else []) ++
       [ChatEvent.setTypingOff])

/-- The sequence of transcript values committed by `setMessages` during one
non-trivial `handleSend` call, in commit order: the initial transcript, the
transcript after the user message, after the placeholder (when the stream
opened), after each fragment update, and after the apology (on error). -/
def msgsTrace (st : ChatState) (spec : StreamSpec) (t : Nat) :
    List (List ChatMessage) :=
  if trimList st.input = [] then [st.messages]
  else
    let m1 := st.messages ++ [userMsg st.input t]
    match spec with
    | StreamSpec.openError => [st.messages, m1, m1 ++ [apologyMsg t]]
    | StreamSpec.stream frags iterError =>
      let m2 := m1 ++ [placeholderMsg t]
      let states := streamStates m2 [] frags
      [st.messages, m1, m2] ++ states ++
        (if iterError then [(states.getLastD m2) ++ [apologyMsg t]] else [])

/-- The transcript invariant relation between two successive committed
transcript values: either one entry was appended at the end, or the text of
the last entry — a model message — was overwritten in place (role and
timestamp kept, all other entries untouched).  -/
def TranscriptStep (old new : List ChatMessage) : Prop :=
  (∃ m, new = old ++ [m]) ∨
  (∃ pre last r, old = pre ++ [last] ∧ last.role = Role.model ∧
    new = pre ++ [{ last with text := r }])

/-- Length of the text of the last transcript entry (0 for an empty
transcript). -/
def lastTextLen (msgs : List ChatMessage) : Nat :=
  ((msgs.getLast?).map (fun m => m.text.length)).getD 0

/-- The transcript values committed during the streaming loop of one
`handleSend` call on state `st` (after the user message and the placeholder
were appended). -/
def sendStreamStates (st : ChatState) (t : Nat) (frags : List Str) :
    List (List ChatMessage) :=
  streamStates (st.messages ++ [userMsg st.input t] ++ [placeholderMsg t]) [] frags

/-! ## Image Generator Controller (ImageGenerator.tsx, `ImageGenerator`) -/

/-- `inlineData` of a response part: optional mime type and optional
base64 payload (both optional in the collaborator's response type). -/
structure InlineData where
  mimeType : Option Str
  data : Option Str
  deriving DecidableEq

/-- One part of a response candidate's content; only `inlineData` is
inspected by `handleGenerate`. -/
structure GenPart where
  inlineData : Option InlineData
  deriving DecidableEq

/-- A candidate's content: an optional list of parts. -/
structure GenContent where
  parts : Option (List GenPart)
  deriving DecidableEq

/-- One response candidate. -/
structure GenCandidate where
  content : Option GenContent
  deriving DecidableEq

/-- The image-generation response: an optional list of candidates. -/
structure GenResponse where
  candidates : Option (List GenCandidate)
  deriving DecidableEq

/-- Model of `response.candidates?.[0]?.content?.parts` with every optional
hop defaulting to no parts (lines 55-56). -/
def partsOf (resp : GenResponse) : List GenPart :=
  match resp.candidates with
  | some (c :: _) =>
    match c.content with
    | some ct =>
      match ct.parts with
      | some ps => ps
      | none => []
    | none => []
  | _ => []

/-- Model of `mimeType || 'image/png'`: JS falls back on a missing or
empty mime type. -/
def jsOrStr (o : Option Str) (dflt : Str) : Str :=
  match o with
  | some s => if s.isEmpty then dflt else s
  | none => dflt

/-- The data URL built for one inline payload (line 58). -/
def dataUrl (d : InlineData) : Str :=
  "data:".toList ++ jsOrStr d.mimeType ("image/png".toList) ++
    ";base64,".toList ++ (d.data.getD [])

/-- The loop body of lines 56-60: push a data URL exactly when the part has
`inlineData` with a present, non-empty (truthy) `data` payload. -/
def pushImagePart (images : List Str) (part : GenPart) : List Str :=
  match part.inlineData with
  | some d =>
    match d.data with
    | some s => if s.isEmpty then images else images ++ [dataUrl d]
    | none => images
  | none => images

/-- The gallery computed from one response (lines 54-62). -/
def collectImages (resp : GenResponse) : List Str :=
  (partsOf resp).foldl pushImagePart []

/-- A part carrying a truthy inline image payload (the condition of line
57). -/
def hasImagePayload (p : GenPart) : Bool :=
  match p.inlineData with
  | some d =>
    match d.data with
    | some s => !s.isEmpty
    | none => false
  | none => false

/-- The data URL a part contributes (meaningful when `hasImagePayload`). -/
def dataUrlOfPart (p : GenPart) : Str :=
  match p.inlineData with
  | some d => dataUrl d
  | none => []

/-- Image Generator controller state (lines 7-11). -/
structure IGState where
  prompt : Str
  generatedImages : List Str
  isLoading : Bool
  hasApiKey : Bool
  deriving DecidableEq

/-- The substring used by the authentication-failure heuristic (line 66). -/
def authNeedle : Str := "Requested entity was not found".toList

/-- Outcome of the awaited `generateContent` call: a response, or a thrown
error whose JSON serialization is the given string. -/
inductive GenOutcome where
  | ok : GenResponse → GenOutcome
  | err : Str → GenOutcome
  deriving DecidableEq

/-- Observable actions of one `handleGenerate` call. -/
inductive IGEvent where
  | consoleError : IGEvent
  | setKeyMissing : IGEvent
  | connectFlow : IGEvent
  deriving DecidableEq

/-- Model of `checkApiKey` (lines 17-22): when the host capability
(`window.aistudio`, modelled as `Option Bool` holding the
`hasSelectedApiKey` answer) is absent, the state is untouched; otherwise
`hasApiKey` is set to the returned answer. -/
def checkApiKey (st : IGState) (aistudio : Option Bool) : IGState :=
  match aistudio with
  | some hasKey => { st with hasApiKey := hasKey }
  | none => st

/-- Model of `handleConnectKey` (lines 24-30): a no-op when the host
capability is absent; otherwise opens the key selector and optimistically
sets `hasApiKey` to true. -/
def handleConnectKey (st : IGState) (aistudio : Option Bool) : IGState :=
  if aistudio.isSome then { st with hasApiKey := true } else st

/-- Model of `handleGenerate` (lines 32-73) with the collaborator call's
outcome passed explicitly.  Empty trimmed prompt: no-op.  Otherwise the
loading flag is set, the gallery cleared, and on success the collected
images stored; on a thrown error the error is logged and, exactly when its
serialization contains `authNeedle`, the key state is reset and the
connect flow is triggered; `finally` clears the loading flag. -/
def handleGenerateRun (st : IGState) (aistudio : Option Bool)
    (outcome : GenOutcome) : IGState × List IGEvent :=
  if trimList st.prompt = [] then (st, [])
  else
    let st1 : IGState := { st with isLoading := true, generatedImages := [] }
    match outcome with
    | GenOutcome.ok resp =>
      ({ st1 with generatedImages := collectImages resp, isLoading := false }, [])
    | GenOutcome.err e =>
      if containsSubstr authNeedle e then
        let st2 := handleConnectKey { st1 with hasApiKey := false } aistudio
        ({ st2 with isLoading := false },
         [IGEvent.consoleError, IGEvent.setKeyMissing, IGEvent.connectFlow])
      else
        ({ st1 with isLoading := false }, [IGEvent.consoleError])

/-! ## Analyzer Controller (ImageGenerator.tsx, `Analyzer`) -/

/-- Analyzer controller state (lines 238-241): the selected file (content
abstracted), the stored result and the analyzing flag. -/
structure AnalyzerState where
  file : Option Str
  result : Option Str
  isAnalyzing : Bool
  deriving DecidableEq

/-- The analysis response: `response.text` may be absent. -/
structure AnalyzeResponse where
  text : Option Str
  deriving DecidableEq

/-- Outcome of the awaited `generateContent` call in `handleAnalyze`. -/
inductive AnalyzeOutcome where
  | ok : AnalyzeResponse → AnalyzeOutcome
  | err : AnalyzeOutcome
  deriving DecidableEq

/-- Observable actions of one `handleAnalyze` call. -/
inductive AnalyzerEvent where
  | consoleError : AnalyzerEvent
  deriving DecidableEq

/-- The fixed user-visible error string stored on failure (line 305). -/
def analyzeErrorText : Str :=
  "Sorry, I encountered an error analyzing the image. Please try again.".toList

/-- Model of `handleAnalyze` (lines 269-309): no-op without a selected
file; otherwise the analyzing flag is set and the result cleared, then on
success the response text is stored only when truthy (present and
non-empty), and on a thrown error the fixed error string is stored and the
error logged; `finally` clears the analyzing flag. -/
def handleAnalyzeRun (st : AnalyzerState) (outcome : AnalyzeOutcome) :
    AnalyzerState × List AnalyzerEvent :=
  match st.file with
  | none => (st, [])
  | some _ =>
    let st1 : AnalyzerState := { st with isAnalyzing := true, result := none }
    match outcome with
    | AnalyzeOutcome.ok resp =>
      match resp.text with
      | some txt =>
        if txt.isEmpty then ({ st1 with isAnalyzing := false }, [])
        else ({ st1 with result := some txt, isAnalyzing := false }, [])
      | none => ({ st1 with isAnalyzing := false }, [])
    | AnalyzeOutcome.err =>
      ({ st1 with result := some analyzeErrorText, isAnalyzing := false },
       [AnalyzerEvent.consoleError])

/-! ## Concrete sample inputs used by witnesses and counterexamples -/

/-- A sample non-blank chat input. -/
def sampleInput : Str := "Hi".toList

/-- A fresh chat state with a non-blank pending input. -/
def sampleChatState : ChatState := ⟨[], sampleInput, false⟩

/-- A chat state whose pending input is whitespace-only. -/
def blankChatState : ChatState := ⟨[], "   ".toList, true⟩

/-- An analyzer state with a selected file and a stale stored result. -/
def sampleAnalyzerState : AnalyzerState :=
  ⟨some ("page".toList), some ("old".toList), false⟩

/-- An image-generator state with a non-blank prompt and the optimistic
key-present flag. -/
def sampleIGState : IGState := ⟨"volcano".toList, [], false, true⟩

/-- A response whose only part has `inlineData` with an empty (falsy)
`data` payload. -/
def c4EmptyDataResponse : GenResponse :=
  ⟨some [⟨some ⟨some [⟨some ⟨some ("image/png".toList), some []⟩⟩]⟩⟩]⟩

/-- A stored analysis text with exactly one occurrence of `"## "`. -/
def c1ExampleText : Str := "## Extracted Question\nThe question.".toList

/-- A stored analysis text with leading pre-text and two headings. -/
def c1WitnessText : Str := "intro## T1\nbodyA\n## T2\nline1\nline2".toList

/-! ## Helper lemmas -/

theorem splitHH_length (s acc : List Char) :
    (splitHH s acc).length = countHH s + 1 := by
  induction s, acc using splitHH.induct with
  | case1 acc => simp [splitHH, countHH]
  | case2 rest acc ih => simp_all [splitHH, countHH]
  | case3 c rest acc h1 ih => simp_all [splitHH, countHH]

theorem enumFrom_filterMap_skip_zero {α β : Type} (f : α → β) :
    ∀ (l : List α) (n : Nat), n ≠ 0 →
      (List.filterMap (fun p => if p.1 = 0 then none else some (f p.2))
        (l.enumFrom n)) = l.map f := by
  intro l
  induction l with
  | nil => intro n _; rfl
  | cons a t ih =>
    intro n hn
    simp only [List.enumFrom_cons, List.filterMap_cons, if_neg hn,
      List.map_cons]
    rw [ih (n + 1) (Nat.succ_ne_zero n)]

theorem renderSections_eq_tail_map (result : Str) :
    renderSections result = (splitHH result []).tail.map mkSection := by
  unfold renderSections
  cases h : splitHH result [] with
  | nil => simp
  | cons a l =>
    simp only [List.enum_cons, List.filterMap_cons, if_pos rfl, List.tail_cons]
    exact enumFrom_filterMap_skip_zero mkSection l 1 (Nat.one_ne_zero)

theorem renderSections_length (result : Str) :
    (renderSections result).length = countHH result := by
  rw [renderSections_eq_tail_map, List.length_map, List.length_tail,
    splitHH_length]
  simp

theorem updateLast_append_singleton (pre : List ChatMessage)
    (p : ChatMessage) (r : Str) :
    updateLast (pre ++ [p]) r = pre ++ [{ p with text := r }] := by
  induction pre with
  | nil => rfl
  | cons a pre ih =>
    obtain ⟨b, l, hb⟩ : ∃ b l, pre ++ [p] = b :: l := by
      cases pre with
      | nil => exact ⟨p, [], rfl⟩
      | cons x xs => exact ⟨x, xs ++ [p], rfl⟩
    simp only [List.cons_append, updateLast, hb]
    rw [← hb, ih]

theorem updateLast_length (msgs : List ChatMessage) (r : Str) :
    (updateLast msgs r).length = msgs.length := by
  induction msgs, r using updateLast.induct with
  | case1 r => rfl
  | case2 m r => rfl
  | case3 m x rest r ih => simp [updateLast, ih]

theorem updateLast_ne_nil (msgs : List ChatMessage) (r : Str)
    (h : msgs ≠ []) : updateLast msgs r ≠ [] := by
  intro hc
  apply h
  have := updateLast_length msgs r
  rw [hc] at this
  exact List.length_eq_zero.mp this.symm

theorem getLast?_cons_eq_getLastD {α : Type} :
    ∀ (l : List α) (x : α), (x :: l).getLast? = some (l.getLastD x)
  | [], x => rfl
  | y :: l, x => by
    rw [List.getLast?_cons_cons, getLast?_cons_eq_getLastD l y,
      List.getLastD_cons]

theorem lastTextLen_updateLast (pre : List ChatMessage) (p : ChatMessage)
    (r : Str) : lastTextLen (updateLast (pre ++ [p]) r) = r.length := by
  rw [updateLast_append_singleton, lastTextLen, List.getLast?_concat]
  rfl

theorem streamStates_shape (frags : List Str) :
    ∀ (pre : List ChatMessage) (p : ChatMessage) (acc : Str),
      ∀ ms ∈ streamStates (pre ++ [p]) acc frags,
        ∃ r : Str, acc.length ≤ r.length ∧ ms = pre ++ [{ p with text := r }] := by
  induction frags with
  | nil => intro pre p acc ms hms; simp [streamStates] at hms
  | cons f rest ih =>
    intro pre p acc ms hms
    by_cases hf : f.isEmpty
    · rw [streamStates, if_pos hf] at hms
      exact ih pre p acc ms hms
    · rw [streamStates, if_neg hf] at hms
      rw [updateLast_append_singleton] at hms
      rcases List.mem_cons.mp hms with hms | hms
      · exact ⟨acc ++ f, by simp, hms⟩
      · obtain ⟨r, hr, hr2⟩ := ih pre { p with text := acc ++ f } (acc ++ f) ms hms
        refine ⟨r, le_trans ?_ hr, hr2⟩
        simp

theorem streamStates_pairwise_lastTextLen (frags : List Str) :
    ∀ (pre : List ChatMessage) (p : ChatMessage) (acc : Str),
      List.Pairwise (fun a b => lastTextLen a ≤ lastTextLen b)
        (streamStates (pre ++ [p]) acc frags) := by
  induction frags with
  | nil => intro pre p acc; simp [streamStates]
  | cons f rest ih =>
    intro pre p acc
    by_cases hf : f.isEmpty
    · rw [streamStates, if_pos hf]; exact ih pre p acc
    · rw [streamStates, if_neg hf]
      refine List.Pairwise.cons ?_ ?_
      · intro ms hms
        rw [updateLast_append_singleton] at hms ⊢
        obtain ⟨r, hr, hr2⟩ :=
          streamStates_shape rest pre { p with text := acc ++ f } (acc ++ f) ms hms
        rw [hr2, lastTextLen, List.getLast?_concat, lastTextLen,
          List.getLast?_concat]
        exact hr
      · rw [updateLast_append_singleton]
        exact ih pre { p with text := acc ++ f } (acc ++ f)

theorem streamLoop_eq_getLastD_streamStates (frags : List Str) :
    ∀ (msgs : List ChatMessage) (acc : Str),
      streamLoop msgs acc frags = (streamStates msgs acc frags).getLastD msgs := by
  induction frags with
  | nil => intro msgs acc; rfl
  | cons f rest ih =>
    intro msgs acc
    by_cases hf : f.isEmpty
    · rw [streamLoop, if_pos hf, streamStates, if_pos hf, ih]
    · rw [streamLoop, if_neg hf, streamStates, if_neg hf, ih,
        List.getLastD_cons]

theorem streamLoop_last_shape (frags : List Str) :
    ∀ (pre : List ChatMessage) (p : ChatMessage) (acc : Str),
      ∃ r : Str, streamLoop (pre ++ [p]) acc frags = pre ++ [{ p with text := r }] := by
  induction frags with
  | nil =>
    intro pre p acc
    exact ⟨p.text, rfl⟩
  | cons f rest ih =>
    intro pre p acc
    by_cases hf : f.isEmpty
    · rw [streamLoop, if_pos hf]; exact ih pre p acc
    · rw [streamLoop, if_neg hf, updateLast_append_singleton]
      exact ih pre { p with text := acc ++ f } (acc ++ f)

theorem pushImagePart_eq (images : List Str) (part : GenPart) :
    pushImagePart images part =
      if hasImagePayload part then images ++ [dataUrlOfPart part] else images := by
  cases hp : part.inlineData with
  | none => simp [pushImagePart, hasImagePayload, hp]
  | some d =>
    cases hd : d.data with
    | none => simp [pushImagePart, hasImagePayload, hp, hd]
    | some s =>
      by_cases hs : s.isEmpty <;>
        simp [pushImagePart, hasImagePayload, dataUrlOfPart, hp, hd, hs]

theorem foldl_pushImagePart (l : List GenPart) :
    ∀ init : List Str,
      l.foldl pushImagePart init =
        init ++ (l.filter hasImagePayload).map dataUrlOfPart := by
  induction l with
  | nil => intro init; simp
  | cons a tl ih =>
    intro init
    rw [List.foldl_cons, pushImagePart_eq]
    by_cases ha : hasImagePayload a
    · rw [if_pos ha, ih, List.filter_cons_of_pos ha, List.map_cons,
        List.append_assoc, List.singleton_append]
    · rw [if_neg ha, ih, List.filter_cons_of_neg (by simpa using ha)]

theorem chain_streamStates (frags : List Str) :
    ∀ (pre : List ChatMessage) (p : ChatMessage) (acc : Str),
      p.role = Role.model →
      List.Chain' TranscriptStep
        ((pre ++ [p]) :: streamStates (pre ++ [p]) acc frags) := by
  induction frags with
  | nil => intro pre p acc _; simp [streamStates]
  | cons f rest ih =>
    intro pre p acc hrole
    by_cases hf : f.isEmpty
    · rw [streamStates, if_pos hf]; exact ih pre p acc hrole
    · rw [streamStates, if_neg hf, updateLast_append_singleton]
      exact List.Chain'.cons (Or.inr ⟨pre, p, acc ++ f, rfl, hrole, rfl⟩)
        (ih pre { p with text := acc ++ f } (acc ++ f) hrole)

theorem handleSendRun_openError (st : ChatState) (t : Nat)
    (hne : trimList st.input ≠ []) :
    handleSendRun st StreamSpec.openError t =
      (⟨st.messages ++ [userMsg st.input t] ++ [apologyMsg t], [], false⟩,
       [ChatEvent.appendUser, ChatEvent.clearInput, ChatEvent.setTypingOn,
        ChatEvent.openStream, ChatEvent.appendApology, ChatEvent.setTypingOff]) := by
  unfold handleSendRun
  rw [if_neg hne]

theorem handleSendRun_stream_messages (st : ChatState) (t : Nat)
    (frags : List Str) (iterError : Bool) (hne : trimList st.input ≠ []) :
    (handleSendRun st (StreamSpec.stream frags iterError) t).1.messages =
      (if iterError then
        streamLoop (st.messages ++ [userMsg st.input t] ++ [placeholderMsg t]) [] frags
          ++ [apologyMsg t]
      else
        streamLoop (st.messages ++ [userMsg st.input t] ++ [placeholderMsg t]) [] frags) := by
  unfold handleSendRun
  rw [if_neg hne]

theorem handleSendRun_isTyping (st : ChatState) (spec : StreamSpec) (t : Nat)
    (hne : trimList st.input ≠ []) :
    (handleSendRun st spec t).1.isTyping = false := by
  unfold handleSendRun
  rw [if_neg hne]
  cases spec <;> rfl

/-! ## Claim theorems -/

/-- C1 counterexample: the claim predicts N-1 displayed sections for N
delimiter occurrences, but a stored text with exactly one `"## "`
occurrence renders one section, not zero. -/
theorem c1_counterexample :
    countHH c1ExampleText = 1 ∧
    (renderSections c1ExampleText).length = 1 ∧
    (renderSections c1ExampleText).length ≠ countHH c1ExampleText - 1 := by
  decide

/-- C1 (amended): rendering a stored analysis text splits it on `"## "`,
discards the first segment, and displays exactly N sections when the text
contains N occurrences of the delimiter; the section at display index i
comes from split segment i+1, its title being the segment's first line
trimmed and its body the remaining lines re-joined and trimmed. -/
theorem c1_section_parse (result : Str) :
    (renderSections result).length = countHH result ∧
    ∀ i, i < (renderSections result).length →
      ∃ seg, (splitHH result []).get? (i + 1) = some seg ∧
        (renderSections result).get? i =
          some ⟨trimList ((splitNl seg []).headD []),
                trimList (joinNl ((splitNl seg []).tail))⟩ := by
  refine ⟨renderSections_length result, ?_⟩
  intro i hi
  rw [renderSections_eq_tail_map] at hi ⊢
  rw [List.length_map] at hi
  cases hsp : splitHH result [] with
  | nil => rw [hsp] at hi; simp at hi
  | cons a l =>
    rw [hsp] at hi
    simp only [List.tail_cons] at hi ⊢
    refine ⟨l.get ⟨i, hi⟩, ?_, ?_⟩
    · rw [List.get?_cons_succ]
      exact List.get?_eq_get hi
    · rw [List.get?_map, List.get?_eq_get hi]
      rfl

/-- C1 witness: the amended theorem evaluated on a concrete stored text
with pre-text and two headings. -/
theorem c1_witness :
    0 < (renderSections c1WitnessText).length ∧
    ∃ seg, (splitHH c1WitnessText []).get? 1 = some seg ∧
      (renderSections c1WitnessText).get? 0 =
        some ⟨trimList ((splitNl seg []).headD []),
              trimList (joinNl ((splitNl seg []).tail))⟩ :=
  ⟨by decide, (c1_section_parse c1WitnessText).2 0 (by decide)⟩

/-- C4 counterexample: a response whose single part has `inlineData` with
an empty `data` payload is an inline-data part, yet the gallery it yields
is empty — not one entry per inline-data part. -/
theorem c4_counterexample :
    (partsOf c4EmptyDataResponse).countP (fun p => p.inlineData.isSome) = 1 ∧
    collectImages c4EmptyDataResponse = [] ∧
    (collectImages c4EmptyDataResponse).length ≠
      (partsOf c4EmptyDataResponse).countP (fun p => p.inlineData.isSome) := by
  decide

/-- C4 (amended): the gallery contains exactly one entry per inline-data
part whose `data` payload is present and non-empty, in part order (an
order-preserving filter-map of the first candidate's parts), including the
empty gallery when no such part exists; on a successful generate the
collected gallery is stored verbatim (and an empty trimmed prompt leaves
the state untouched). -/
theorem c4_gallery (resp : GenResponse) :
    collectImages resp =
      ((partsOf resp).filter hasImagePayload).map dataUrlOfPart ∧
    (collectImages resp).length = (partsOf resp).countP hasImagePayload ∧
    ∀ (st : IGState) (aistudio : Option Bool),
      (handleGenerateRun st aistudio (GenOutcome.ok resp)).1.generatedImages =
        if trimList st.prompt = [] then st.generatedImages
        else collectImages resp := by
  have h := foldl_pushImagePart (partsOf resp) []
  rw [List.nil_append] at h
  have h1 : collectImages resp =
      ((partsOf resp).filter hasImagePayload).map dataUrlOfPart := h
  refine ⟨h1, ?_, ?_⟩
  · rw [h1, List.length_map, List.countP_eq_length_filter]
  · intro st aistudio
    unfold handleGenerateRun
    by_cases hp : trimList st.prompt = []
    · rw [if_pos hp, if_pos hp]
    · rw [if_neg hp, if_neg hp]

/-- C7 counterexample: with a file selected, a successful request whose
response text is empty leaves the stored result cleared (`none`) instead
of storing the raw (empty) response text. -/
theorem c7_counterexample :
    sampleAnalyzerState.file.isSome = true ∧
    (handleAnalyzeRun sampleAnalyzerState
      (AnalyzeOutcome.ok ⟨some []⟩)).1.result = none ∧
    (handleAnalyzeRun sampleAnalyzerState
      (AnalyzeOutcome.ok ⟨some []⟩)).1.result ≠ some [] := by
  decide

/-- C7 (amended): for a completed `analyze()` call on a selected file, a
successful request stores the raw response text exactly when that text is
present and non-empty (otherwise the result stays cleared), and a thrown
request stores the fixed user-visible error string and logs the error; in
both cases the analyzing flag ends false. -/
theorem c7_analyze_result (st : AnalyzerState) (resp : AnalyzeResponse)
    (hfile : st.file.isSome = true) :
    ((handleAnalyzeRun st (AnalyzeOutcome.ok resp)).1.result =
      match resp.text with
      | some txt => if txt.isEmpty then none else some txt
      | none => none) ∧
    (handleAnalyzeRun st (AnalyzeOutcome.ok resp)).1.isAnalyzing = false ∧
    (handleAnalyzeRun st AnalyzeOutcome.err).1.result = some analyzeErrorText ∧
    (handleAnalyzeRun st AnalyzeOutcome.err).1.isAnalyzing = false ∧
    AnalyzerEvent.consoleError ∈ (handleAnalyzeRun st AnalyzeOutcome.err).2 := by
  obtain ⟨f, hf⟩ := Option.isSome_iff_exists.mp hfile
  unfold handleAnalyzeRun
  rw [hf]
  cases htxt : resp.text with
  | none => simp [htxt]
  | some txt =>
    by_cases ht : txt.isEmpty <;> simp [htxt, ht]

/-- C7 witness: the amended theorem evaluated on the sample analyzer
state. -/
theorem c7_witness :
    sampleAnalyzerState.file.isSome = true ∧
    (handleAnalyzeRun sampleAnalyzerState AnalyzeOutcome.err).1.result =
      some analyzeErrorText :=
  ⟨by decide,
   (c7_analyze_result sampleAnalyzerState ⟨some []⟩ (by decide)).2.2.1⟩

/-- C9: when the trimmed input is empty, `handleSend` is a no-op — the
state (transcript, input field, typing flag) is returned unchanged and no
observable action (in particular no request to the collaborator) is
emitted. -/
theorem c9_empty_input_noop (st : ChatState) (spec : StreamSpec) (t : Nat)
    (h : trimList st.input = []) :
    handleSendRun st spec t = (st, []) := by
  unfold handleSendRun
  rw [if_pos h]

/-- C9 witness: the no-op on a whitespace-only input. -/
theorem c9_witness :
    trimList blankChatState.input = [] ∧
    handleSendRun blankChatState StreamSpec.openError 0 = (blankChatState, []) :=
  ⟨by decide, c9_empty_input_noop blankChatState StreamSpec.openError 0 (by decide)⟩

/-- C10 counterexample: with the host capability absent, the mount-time
check indeed leaves the optimistic key-present state unchanged, yet the
controller still enters the keyMissing state through the generation error
heuristic — so it is not true that keyMissing is never entered. -/
theorem c10_counterexample :
    checkApiKey sampleIGState none = sampleIGState ∧
    sampleIGState.hasApiKey = true ∧
    (handleGenerateRun sampleIGState none
      (GenOutcome.err authNeedle)).1.hasApiKey = false := by
  decide

/-- C10 (amended): when the host key-management capability is absent, the
mount-time key check and the connect action both leave the state unchanged
(so the optimistic key-present flag stays true through them); the
keyMissing state remains reachable only via the generation error
heuristic. -/
theorem c10_absent_host (st : IGState) :
    checkApiKey st none = st ∧ handleConnectKey st none = st := by
  exact ⟨rfl, rfl⟩

/-- C2: streaming a turn with fragment sequence ["Hel", "lo"] leaves the
last transcript entry's text equal to "Hello"; and in any streamed turn the
length of the last entry's text after each fragment update is monotone
non-decreasing across updates (the accumulator only grows). -/
theorem c2_stream_accumulation (st : ChatState) (t : Nat) (frags : List Str)
    (hne : trimList st.input ≠ []) :
    (frags = ["Hel".toList, "lo".toList] →
      ((handleSendRun st (StreamSpec.stream frags false) t).1.messages.getLast?).map
          (fun m => m.text) = some ("Hello".toList)) ∧
    ∀ i j (hi : i < (sendStreamStates st t frags).length)
        (hj : j < (sendStreamStates st t frags).length), i ≤ j →
      lastTextLen ((sendStreamStates st t frags).get ⟨i, hi⟩) ≤
        lastTextLen ((sendStreamStates st t frags).get ⟨j, hj⟩) := by
  constructor
  · intro hfr
    subst hfr
    rw [handleSendRun_stream_messages st t _ false hne, if_neg (by decide)]
    rw [streamLoop, if_neg (by decide), updateLast_append_singleton]
    rw [streamLoop, if_neg (by decide), updateLast_append_singleton]
    rw [streamLoop, List.getLast?_concat]
    rfl
  · intro i j hi hj hij
    rcases Nat.lt_or_ge i j with hlt | hge
    · exact List.pairwise_iff_get.mp
        (streamStates_pairwise_lastTextLen frags
          (st.messages ++ [userMsg st.input t]) (placeholderMsg t) [])
        ⟨i, hi⟩ ⟨j, hj⟩ hlt
    · have hij' : i = j := Nat.le_antisymm hij hge
      subst hij'
      exact le_refl _

/-- C2 witness: the theorem evaluated on a fresh chat state and the
fragment sequence ["Hel", "lo"]. -/
theorem c2_witness :
    trimList sampleChatState.input ≠ [] ∧
    ((handleSendRun sampleChatState
        (StreamSpec.stream ["Hel".toList, "lo".toList] false) 0).1.messages.getLast?).map
        (fun m => m.text) = some ("Hello".toList) :=
  ⟨by decide,
   (c2_stream_accumulation sampleChatState 0 ["Hel".toList, "lo".toList]
     (by decide)).1 rfl⟩

/-- C3 counterexample: on a concrete send, the stream-open action occurs
strictly before the placeholder append — the placeholder is not appended
before the streamed response is opened as claimed (the code awaits
`sendMessageStream` first). -/
theorem c3_counterexample :
    trimList sampleChatState.input ≠ [] ∧
    (handleSendRun sampleChatState
        (StreamSpec.stream ["Hi there".toList] false) 0).2.indexOf
        ChatEvent.openStream <
      (handleSendRun sampleChatState
        (StreamSpec.stream ["Hi there".toList] false) 0).2.indexOf
        ChatEvent.appendPlaceholder := by
  decide

/-- C3 (amended): whenever the placeholder is appended during a send, the
first five observable actions are append-user, clear-input, set-typing,
open-stream, append-placeholder — i.e. the empty placeholder model message
is appended immediately after the streamed response is opened, not
before. -/
theorem c3_placeholder_after_open (st : ChatState) (spec : StreamSpec) (t : Nat)
    (h : ChatEvent.appendPlaceholder ∈ (handleSendRun st spec t).2) :
    (handleSendRun st spec t).2.take 5 =
      [ChatEvent.appendUser, ChatEvent.clearInput, ChatEvent.setTypingOn,
       ChatEvent.openStream, ChatEvent.appendPlaceholder] := by
  unfold handleSendRun at h ⊢
  by_cases hne : trimList st.input = []
  · rw [if_pos hne] at h
    simp at h
  · rw [if_neg hne] at h ⊢
    cases spec with
    | openError => simp at h
    | stream frags iterError => rfl

/-- C3 witness: the amended theorem evaluated on a concrete send. -/
theorem c3_witness :
    ChatEvent.appendPlaceholder ∈
      (handleSendRun sampleChatState
        (StreamSpec.stream ["Hi there".toList] false) 0).2 ∧
    (handleSendRun sampleChatState
        (StreamSpec.stream ["Hi there".toList] false) 0).2.take 5 =
      [ChatEvent.appendUser, ChatEvent.clearInput, ChatEvent.setTypingOn,
       ChatEvent.openStream, ChatEvent.appendPlaceholder] :=
  ⟨by decide, c3_placeholder_after_open sampleChatState _ 0 (by decide)⟩

/-- C5 counterexample: when `sendMessageStream` itself throws, the
transcript ends as [user message, apology] — the typing flag is cleared
and the apology is appended, but no empty placeholder model message was
ever appended, so none remains. -/
theorem c5_counterexample :
    trimList sampleChatState.input ≠ [] ∧
    (handleSendRun sampleChatState StreamSpec.openError 0).1.messages =
      [userMsg sampleInput 0, apologyMsg 0] ∧
    ∀ m ∈ (handleSendRun sampleChatState StreamSpec.openError 0).1.messages,
      m.text ≠ [] := by
  decide

/-- C5 (amended): on any thrown chat-stream error the typing flag is
cleared and the fixed apology is appended as a new entry; the placeholder
model message remains in the transcript (at its slot, role model, with the
apology after it) exactly when the error was thrown after the stream was
opened — when opening the stream itself throws, only the user message and
the apology are appended and no placeholder exists. -/
theorem c5_error_paths (st : ChatState) (t : Nat) (frags : List Str)
    (hne : trimList st.input ≠ []) :
    ((handleSendRun st StreamSpec.openError t).1.isTyping = false ∧
     (handleSendRun st StreamSpec.openError t).1.messages =
       st.messages ++ [userMsg st.input t, apologyMsg t]) ∧
    ((handleSendRun st (StreamSpec.stream frags true) t).1.isTyping = false ∧
     (handleSendRun st (StreamSpec.stream frags true) t).1.messages.getLast? =
       some (apologyMsg t) ∧
     (handleSendRun st (StreamSpec.stream frags true) t).1.messages.length =
       st.messages.length + 3 ∧
     ((handleSendRun st (StreamSpec.stream frags true) t).1.messages.get?
         (st.messages.length + 1)).map (fun m => m.role) = some Role.model) := by
  obtain ⟨r, hr⟩ := streamLoop_last_shape frags
    (st.messages ++ [userMsg st.input t]) (placeholderMsg t) []
  have hmsg := handleSendRun_stream_messages st t frags true hne
  rw [if_pos rfl] at hmsg
  constructor
  · refine ⟨handleSendRun_isTyping st StreamSpec.openError t hne, ?_⟩
    rw [handleSendRun_openError st t hne]
    simp
  · refine ⟨handleSendRun_isTyping st _ t hne, ?_, ?_, ?_⟩
    · rw [hmsg, List.getLast?_concat]
    · rw [hmsg, List.length_append, hr]
      simp
    · rw [hmsg, hr]
      rw [List.get?_append (by simp)]
      rw [(by simp : st.messages.length + 1 =
        (st.messages ++ [userMsg st.input t]).length)]
      rw [List.get?_concat_length]
      rfl

/-- C5 witness: the amended theorem evaluated on a concrete send whose
stream open throws. -/
theorem c5_witness :
    trimList sampleChatState.input ≠ [] ∧
    (handleSendRun sampleChatState StreamSpec.openError 0).1.messages =
      sampleChatState.messages ++
        [userMsg sampleChatState.input 0, apologyMsg 0] :=
  ⟨by decide, ((c5_error_paths sampleChatState 0 ["x".toList] (by decide)).1).2⟩

/-- C6: on any thrown image-generation failure the error is logged; the
keyMissing transition and the connect flow are triggered exactly when the
serialized error contains the authentication substring; the final state is
non-generating with an empty gallery; and the outcome depends on the error
text only through the substring test, so the raw error text is never
surfaced. -/
theorem c6_error_recovery (st : IGState) (aistudio : Option Bool) (e e2 : Str)
    (hne : trimList st.prompt ≠ []) :
    IGEvent.consoleError ∈ (handleGenerateRun st aistudio (GenOutcome.err e)).2 ∧
    (IGEvent.setKeyMissing ∈ (handleGenerateRun st aistudio (GenOutcome.err e)).2 ↔
      containsSubstr authNeedle e = true) ∧
    (IGEvent.connectFlow ∈ (handleGenerateRun st aistudio (GenOutcome.err e)).2 ↔
      containsSubstr authNeedle e = true) ∧
    (handleGenerateRun st aistudio (GenOutcome.err e)).1.isLoading = false ∧
    (handleGenerateRun st aistudio (GenOutcome.err e)).1.generatedImages = [] ∧
    (containsSubstr authNeedle e = containsSubstr authNeedle e2 →
      handleGenerateRun st aistudio (GenOutcome.err e) =
        handleGenerateRun st aistudio (GenOutcome.err e2)) := by
  have hguard : (trimList st.prompt = []) = False := eq_false hne
  simp only [handleGenerateRun, hguard, if_false]
  by_cases hc : containsSubstr authNeedle e = true
  · rw [if_pos hc]
    refine ⟨by simp, by simp [hc], by simp [hc], rfl, ?_, ?_⟩
    · cases aistudio <;> rfl
    · intro h
      rw [← h, if_pos hc]
  · rw [if_neg hc]
    refine ⟨by simp, ?_, ?_, rfl, rfl, ?_⟩
    · simp [hc]
    · simp [hc]
    · intro h
      rw [← h, if_neg hc]

/-- C6 witness: the theorem evaluated on a concrete failing generation
whose serialized error is exactly the authentication substring. -/
theorem c6_witness :
    trimList sampleIGState.prompt ≠ [] ∧
    IGEvent.consoleError ∈
      (handleGenerateRun sampleIGState (some true) (GenOutcome.err authNeedle)).2 :=
  ⟨by decide,
   (c6_error_recovery sampleIGState (some true) authNeedle authNeedle (by decide)).1⟩

/-- C8: every transcript commit of the Chat Controller preserves the
transcript invariant — the mount greeting is an append from the empty
transcript, and every pair of successive transcript values committed by
`handleSend` either appends one entry at the end or rewrites only the text
of the last entry, which is a model message (no reorder, removal or
deduplication, all other entries bytewise unchanged). -/
theorem c8_transcript_invariant (st : ChatState) (spec : StreamSpec) (t : Nat) :
    TranscriptStep [] [greetingMsg t] ∧
    List.Chain' TranscriptStep (msgsTrace st spec t) := by
  constructor
  · exact Or.inl ⟨greetingMsg t, rfl⟩
  · unfold msgsTrace
    by_cases hne : trimList st.input = []
    · rw [if_pos hne]
      simp
    · rw [if_neg hne]
      cases spec with
      | openError =>
        show List.Chain' TranscriptStep
          [st.messages, st.messages ++ [userMsg st.input t],
           st.messages ++ [userMsg st.input t] ++ [apologyMsg t]]
        refine List.Chain'.cons (Or.inl ⟨userMsg st.input t, rfl⟩) ?_
        refine List.Chain'.cons (Or.inl ⟨apologyMsg t, rfl⟩) ?_
        exact List.chain'_singleton _
      | stream frags iterError =>
        show List.Chain' TranscriptStep
          ([st.messages, st.messages ++ [userMsg st.input t],
            st.messages ++ [userMsg st.input t] ++ [placeholderMsg t]] ++
           streamStates
             (st.messages ++ [userMsg st.input t] ++ [placeholderMsg t]) [] frags ++
           (if iterError then
              [((streamStates
                  (st.messages ++ [userMsg st.input t] ++ [placeholderMsg t])
                  [] frags).getLastD
                  (st.messages ++ [userMsg st.input t] ++ [placeholderMsg t])) ++
                [apologyMsg t]]
            else []))
        simp only [List.cons_append, List.nil_append]
        refine List.Chain'.cons (Or.inl ⟨userMsg st.input t, rfl⟩) ?_
        refine List.Chain'.cons (Or.inl ⟨placeholderMsg t, rfl⟩) ?_
        cases iterError with
        | false =>
          rw [if_neg (by decide), List.append_nil]
          exact chain_streamStates frags (st.messages ++ [userMsg st.input t])
            (placeholderMsg t) [] rfl
        | true =>
          rw [if_pos rfl, ← List.cons_append]
          refine List.chain'_append.mpr
            ⟨chain_streamStates frags (st.messages ++ [userMsg st.input t])
              (placeholderMsg t) [] rfl,
             List.chain'_singleton _, ?_⟩
          intro a ha b hb
          rw [getLast?_cons_eq_getLastD, Option.mem_def, Option.some_inj] at ha
          rw [List.head?_cons, Option.mem_def, Option.some_inj] at hb
          subst ha
          subst hb
          exact Or.inl ⟨apologyMsg t, rfl⟩

end PageGenius
